import Mathlib

/-!
Verification of the `neon-testing` branch lifecycle orchestrator
(`index.ts` / the current module exporting `makeNeonTesting`).

The TypeScript source is shallowly embedded: JavaScript numbers are modelled
as rationals (`ℚ`), `x | null | undefined` values as a three-state sum
(`JsOpt`), optional strings as `Option String` with the empty string being
the only falsy string, and the stateful Vitest suite lifecycle
(`beforeAll` / tests / `afterAll`) as explicit steps on a `SuiteState`
record.  Fallible code returns `Except String`.
-/

deriving instance DecidableEq for Except

namespace NeonTesting

/-- JavaScript `String.prototype.includes`: substring containment, modelled
on the underlying character lists. -/
def jsIncludes (s sub : String) : Bool :=
  decide (sub.data <:+: s.data)

/-- A JavaScript value of type `T | null | undefined`. -/
inductive JsOpt (α : Type) where
  | undef : JsOpt α
  | null : JsOpt α
  | val : α → JsOpt α
deriving DecidableEq, Repr

/-- JavaScript truthiness of an optional string: `undefined` and the empty
string are falsy, every other string is truthy. -/
def jsFalsyStr : Option String → Bool
  | none => true
  | some s => s == ""

/-- `validateExpiresIn` from the source: no check for `null`/`undefined`;
otherwise the value must be an integer, positive, and at most 2,592,000
seconds (30 days), each violation throwing an `Error` with the message the
source uses.  `Number.isInteger` on a JS number is `Rat.isInt` on `ℚ`. -/
def validateExpiresIn : JsOpt ℚ → Except String Unit
  | .undef => .ok ()
  | .null => .ok ()
  | .val q =>
    if ¬ q.isInt then .error "expiresIn must be an integer"
    else if q ≤ 0 then .error "expiresIn must be a positive integer"
    else if q > 2592000 then .error "expiresIn must not exceed 30 days (2,592,000 seconds)"
    else .ok ()

/-- A JavaScript `Error` as the uncaught-exception handler inspects it:
a message and an optional stack trace (`error.stack` may be `undefined`). -/
structure JsErrorObj where
  message : String
  stack : Option String
deriving DecidableEq, Repr

/-- The signature test inside `neonWsErrorHandler`:
`error.message.includes("Connection terminated unexpectedly") &&
error.stack?.includes("@neondatabase/serverless")` — with optional
chaining, so an absent stack makes the conjunction falsy. -/
def isNeonWsClose (e : JsErrorObj) : Bool :=
  jsIncludes e.message "Connection terminated unexpectedly" &&
    (match e.stack with
     | some st => jsIncludes st "@neondatabase/serverless"
     | none => false)

/-- What the process-wide handler does with one error. -/
inductive HandlerResult where
  | swallowed : HandlerResult
  | rethrown : JsErrorObj → HandlerResult
deriving DecidableEq, Repr

/-- `neonWsErrorHandler` from the source: return (swallow) when the benign
Neon WebSocket termination signature matches, rethrow the error otherwise. -/
def neonWsErrorHandler (e : JsErrorObj) : HandlerResult :=
  if isNeonWsClose e then .swallowed else .rethrown e

/-- `NeonTestingOptions` from the source.  Optional string fields are
`Option String` (`none` = absent/`undefined`); the two optional booleans
likewise; `expiresIn : number | null | undefined` is `JsOpt ℚ`. -/
structure NeonOptions where
  apiKey : String
  projectId : String
  parentBranchId : Option String := none
  schemaOnly : Option Bool := none
  endpoint : Option String := none
  deleteBranch : Option Bool := none
  autoCloseWebSockets : Option Bool := none
  expiresIn : JsOpt ℚ := .undef
  roleName : Option String := none
  databaseName : Option String := none
deriving DecidableEq, Repr

/-- `NeonTestingOverrides` (`Omit<Partial<NeonTestingOptions>, "apiKey">`).
A field holding `none` (resp. `.undef`) models an absent property; a
property explicitly present with value `undefined` is modelled the same way
as an absent one. -/
structure NeonOverrides where
  projectId : Option String := none
  parentBranchId : Option String := none
  schemaOnly : Option Bool := none
  endpoint : Option String := none
  deleteBranch : Option Bool := none
  autoCloseWebSockets : Option Bool := none
  expiresIn : JsOpt ℚ := .undef
  roleName : Option String := none
  databaseName : Option String := none
deriving DecidableEq, Repr

/-- The spread merge `{ ...factoryOptions, ...overrides }`: every field the
overrides record carries wins over the factory value. -/
def mergeOptions (f : NeonOptions) (o : NeonOverrides) : NeonOptions where
  apiKey := f.apiKey
  projectId := o.projectId.getD f.projectId
  parentBranchId := (o.parentBranchId).orElse fun _ => f.parentBranchId
  schemaOnly := (o.schemaOnly).orElse fun _ => f.schemaOnly
  endpoint := (o.endpoint).orElse fun _ => f.endpoint
  deleteBranch := (o.deleteBranch).orElse fun _ => f.deleteBranch
  autoCloseWebSockets := (o.autoCloseWebSockets).orElse fun _ => f.autoCloseWebSockets
  expiresIn := match o.expiresIn with | .undef => f.expiresIn | e => e
  roleName := (o.roleName).orElse fun _ => f.roleName
  databaseName := (o.databaseName).orElse fun _ => f.databaseName

/-- The synchronous prologue of `makeNeonTesting`: the factory validates
`factoryOptions.expiresIn` before anything else (the API client is built
from the key only; no network request is made by the factory). -/
def makeNeonTestingValidate (factory : NeonOptions) : Except String Unit :=
  validateExpiresIn factory.expiresIn

/-- The synchronous body of the activation function `neonTesting(overrides)`:
`if (overrides?.expiresIn !== undefined) validateExpiresIn(overrides.expiresIn)`
followed by the option merge.  It runs when the suite calls the activation
function, before any lifecycle hook and before any network call; a
validation failure is thrown here and no hook is ever registered. -/
def neonTestingActivate (factory : NeonOptions) (overrides : Option NeonOverrides) :
    Except String NeonOptions :=
  match overrides with
  | none => .ok (mergeOptions factory {})
  | some o =>
    match o.expiresIn with
    | .undef => .ok (mergeOptions factory o)
    | e =>
      match validateExpiresIn e with
      | .error m => .error m
      | .ok _ => .ok (mergeOptions factory o)

/-- The `branch` object of the create-branch request in `createBranch`.
`expires_at` is an epoch timestamp in milliseconds (the source formats it
as an ISO string; the formatting is injective, so the timestamp itself is
modelled). -/
structure BranchSpec where
  name : String
  parent_id : Option String
  init_source : Option String
  expires_at : Option ℚ
deriving DecidableEq, Repr

/-- The expiry computation at the top of `createBranch`:
`options.expiresIn === undefined ? 600 : options.expiresIn`, then
`expiresAt = expiresIn !== null ? new Date(Date.now() + expiresIn * 1000) :
undefined`, with `nowMs = Date.now()`. -/
def effectiveExpiresIn (expiresIn : JsOpt ℚ) : JsOpt ℚ :=
  match expiresIn with
  | .undef => .val 600
  | e => e

/-- Continuation of the expiry computation: `expiresAt` is a timestamp
unless the effective value is `null`. -/
def branchExpiresAtMs (expiresIn : JsOpt ℚ) (nowMs : ℚ) : Option ℚ :=
  match effectiveExpiresIn expiresIn with
  | .null => none
  | .undef => none
  | .val q => some (nowMs + q * 1000)

/-- The branch-creation request body built by `createBranch` (the fields of
`branch`; the endpoint list and the fixed marker annotation value are
constants in the source). -/
def makeBranchRequest (opts : NeonOptions) (uuid : String) (nowMs : ℚ) : BranchSpec where
  name := "test/" ++ uuid
  parent_id := opts.parentBranchId
  init_source := if opts.schemaOnly.getD false then some "schema-only" else none
  expires_at := branchExpiresAtMs opts.expiresIn nowMs

/-- An error as `withRetry` inspects it: `error?.response?.status` is an
optional JS number, and `payload` keeps the error's identity so that
"propagates the failure unchanged" is expressible. -/
structure ApiError where
  status : Option ℚ
  payload : String
deriving DecidableEq, Repr

/-- What one call to `withRetry` can produce: the operation's value, the
operation's own failure rethrown unchanged, or an `Error` thrown by the
wrapper itself (invalid policy, or the unreachable end of the loop). -/
inductive RetryOutcome (α : Type) where
  | ok : α → RetryOutcome α
  | err : ApiError → RetryOutcome α
  | thrown : String → RetryOutcome α
deriving DecidableEq, Repr

/-- The body of the `for (let attempt = 1; attempt <= maxRetries;
attempt++)` loop of `withRetry`, with the remaining number of loop
iterations (`maxRetries + 1 - attempt`) made an explicit structural
argument.  When the iterations run out the loop falls through to the
unreachable trailing `throw`.  The asynchronous operation is modelled as a
function from the attempt number to its result; the returned list records,
in order, the backoff delays (`baseDelayMs * 2 ** (attempt - 1)`) awaited
between attempts. -/
def retryLoopAux (fn : ℕ → Except ApiError α) (maxRetries : ℕ) (baseDelayMs : ℚ) :
    ℕ → ℕ → RetryOutcome α × List ℚ
  | 0, _ => (.thrown "apiCallWithRetry reached unexpected end", [])
  | fuel + 1, attempt =>
    match fn attempt with
    | .ok v => (.ok v, [])
    | .error e =>
      if e.status = some 423 ∧ attempt < maxRetries then
        let rest := retryLoopAux fn maxRetries baseDelayMs fuel (attempt + 1)
        (rest.1, baseDelayMs * 2 ^ (attempt - 1) :: rest.2)
      else (.err e, [])

/-- The retry loop from `attempt` on (see `retryLoopAux`; the lemma
`retryLoop_eq` below recovers the loop-shaped unfolding). -/
def retryLoop (fn : ℕ → Except ApiError α) (maxRetries : ℕ) (baseDelayMs : ℚ)
    (attempt : ℕ) : RetryOutcome α × List ℚ :=
  retryLoopAux fn maxRetries baseDelayMs (maxRetries + 1 - attempt) attempt

/-- `withRetry` from the source: both policy fields are validated with
`!Number.isInteger(x) || x <= 0` before the operation is first invoked,
then the retry loop runs starting at attempt 1. -/
def withRetry (fn : ℕ → Except ApiError α) (maxRetries baseDelayMs : ℚ) :
    RetryOutcome α × List ℚ :=
  if ¬ maxRetries.isInt ∨ maxRetries ≤ 0 then
    (.thrown "maxRetries must be a positive integer", [])
  else if ¬ baseDelayMs.isInt ∨ baseDelayMs ≤ 0 then
    (.thrown "baseDelayMs must be a positive integer", [])
  else retryLoop fn maxRetries.num.toNat baseDelayMs 1

/-- A role or database record of the branch-creation response (only the
`name` field is read by `createBranch`). -/
structure NamedRec where
  name : String
deriving DecidableEq, Repr

/-- The part of the branch-creation response `createBranch` reads to pick a
role and a database; both arrays are optional in the API client's types. -/
structure BranchCreateData where
  roles : Option (List NamedRec)
  databases : Option (List NamedRec)
deriving DecidableEq, Repr

/-- JavaScript `!x` on an optional boolean (`data.roles?.some(...)` is
`undefined` when `roles` is `undefined`, and `!undefined` is `true`). -/
def jsNotOptBool : Option Bool → Bool
  | none => true
  | some b => !b

/-- The role/database resolution and validation block of `createBranch`:
the `??` chains computing `targetRole`/`targetDatabase`, the two
availability checks (`!targetRole`, `!targetDatabase`), then the two
existence checks for explicitly named role/database, in source order.  On
success it returns the pair passed to `getConnectionUri`. -/
def resolveRoleAndDatabase (roleName databaseName : Option String)
    (data : BranchCreateData) : Except String (String × String) :=
  let targetRole : Option String :=
    roleName.orElse fun _ =>
      ((data.roles.bind fun rs => (rs.find? fun r => r.name == "neondb_owner").map
          NamedRec.name).orElse fun _ =>
        data.roles.bind fun rs => rs.head?.map NamedRec.name)
  let targetDatabase : Option String :=
    databaseName.orElse fun _ =>
      ((data.databases.bind fun ds => (ds.find? fun d => d.name == "neondb").map
          NamedRec.name).orElse fun _ =>
        data.databases.bind fun ds => ds.head?.map NamedRec.name)
  if jsFalsyStr targetRole then .error "No role available in branch"
  else if jsFalsyStr targetDatabase then .error "No database available in branch"
  else if !(jsFalsyStr roleName) &&
      jsNotOptBool (data.roles.map fun rs => rs.any fun r => r.name == roleName.getD "") then
    .error ("Role not found: " ++ roleName.getD "")
  else if !(jsFalsyStr databaseName) &&
      jsNotOptBool (data.databases.map fun ds => ds.any fun d => d.name == databaseName.getD "") then
    .error ("Database not found: " ++ databaseName.getD "")
  else .ok (targetRole.getD "", targetDatabase.getD "")

/-- The WebSocket ready states of the WHATWG API. -/
inductive WsReadyState where
  | connecting : WsReadyState
  | opened : WsReadyState
  | closing : WsReadyState
  | closed : WsReadyState
deriving DecidableEq, Repr

/-- One WebSocket object, identified by `sid` (the tracked set is keyed by
object identity, which fresh serial numbers model). -/
structure SocketObj where
  sid : ℕ
  url : String
  readyState : WsReadyState
deriving DecidableEq, Repr

/-- Which constructor `neonConfig.webSocketConstructor` currently holds. -/
inductive WsCtor where
  | original : WsCtor
  | tracking : WsCtor
deriving DecidableEq, Repr

/-- The Neon branch handle kept in the closure variable `branch`. -/
structure BranchHandle where
  id : String
deriving DecidableEq, Repr

/-- The mutable state one suite activation touches: the
`process.env.DATABASE_URL` slot, the closure variable `branch`, every
constructed WebSocket, the tracked set `neonSockets` (socket identities),
the global `neonConfig.webSocketConstructor`, and how many copies of
`neonWsErrorHandler` are installed as process-wide `uncaughtException`
listeners. -/
structure SuiteState where
  databaseUrl : Option String
  branch : Option BranchHandle
  sockets : List SocketObj
  neonSockets : List ℕ
  wsCtor : WsCtor
  uncaughtHandlers : ℕ
  nextSid : ℕ
deriving DecidableEq, Repr

/-- The state of a fresh Vitest worker before the pre-suite hook runs: the
package's setup file has already run `delete process.env.DATABASE_URL`, no
branch exists, nothing is tracked, the WebSocket constructor is the
ambient original and no error handler is installed. -/
def initialSuiteState : SuiteState where
  databaseUrl := none
  branch := none
  sockets := []
  neonSockets := []
  wsCtor := .original
  uncaughtHandlers := 0
  nextSid := 0

/-- Assignment to a `process.env` property in Node.js: the value is coerced
to a string, so assigning `undefined` stores the string "undefined" — it
does not remove the variable (removal would be `delete process.env.X`). -/
def setProcessEnvVar (v : Option String) : Option String :=
  some (v.getD "undefined")

/-- The `beforeAll` hook, run after `createBranch` resolved: the connection
URI is assigned to `process.env.DATABASE_URL`, the created branch is held
in the closure, and with `autoCloseWebSockets` the tracking constructor is
installed in `neonConfig.webSocketConstructor`. -/
def beforeAllStep (opts : NeonOptions) (br : BranchHandle) (uri : String)
    (s : SuiteState) : SuiteState :=
  let s1 := { s with databaseUrl := setProcessEnvVar (some uri), branch := some br }
  if opts.autoCloseWebSockets.getD false then { s1 with wsCtor := .tracking } else s1

/-- Construction of a WebSocket during the tests.  Under the original
constructor nothing is tracked; under `TrackingWebSocket`, a connection
whose URL contains ".neon.tech/" is added to `neonSockets` (identity set);
other URLs return early and are not tracked. -/
def newWebSocketStep (url : String) (s : SuiteState) : SuiteState :=
  let sock : SocketObj := { sid := s.nextSid, url := url, readyState := .connecting }
  let s1 := { s with sockets := s.sockets ++ [sock], nextSid := s.nextSid + 1 }
  match s.wsCtor with
  | .original => s1
  | .tracking =>
    if jsIncludes url ".neon.tech/" then
      { s1 with neonSockets := s1.neonSockets ++ [sock.sid] }
    else s1

/-- Replace the ready state of the socket `sid`. -/
def setSocketState (sid : ℕ) (st : WsReadyState) (s : SuiteState) : SuiteState :=
  { s with sockets := s.sockets.map fun sk =>
      if sk.sid = sid then { sk with readyState := st } else sk }

/-- The socket's connection is established (the `open` event). -/
def socketOpenEvent (sid : ℕ) (s : SuiteState) : SuiteState :=
  setSocketState sid .opened s

/-- The socket's `close` event fires: its ready state becomes `closed`.
`TrackingWebSocket` registers no close listener, so nothing removes the
socket from `neonSockets`. -/
def socketCloseEvent (sid : ℕ) (s : SuiteState) : SuiteState :=
  setSocketState sid .closed s

/-- `WebSocket.prototype.close()`: a socket that is not already closed moves
to the `closing` state; the close handshake completes asynchronously. -/
def wsCloseCall : WsReadyState → WsReadyState
  | .closed => .closed
  | _ => .closing

/-- The sockets currently in the tracked set. -/
def trackedSockets (s : SuiteState) : List SocketObj :=
  s.sockets.filter fun sk => s.neonSockets.contains sk.sid

/-- The delete-branch API call as issued by `deleteBranch`, together with a
snapshot of the tracked set at the moment the call is issued. -/
structure DeleteCall where
  projectId : String
  branchId : String
  trackedAtCall : List SocketObj
deriving DecidableEq, Repr

/-- The first statement of the `afterAll` hook: the assignment
`process.env.DATABASE_URL = undefined`. -/
def envClearedState (s : SuiteState) : SuiteState :=
  { s with databaseUrl := setProcessEnvVar none }

/-- The auto-close block of the `afterAll` hook: with `autoCloseWebSockets`
it prepends `neonWsErrorHandler` as an `uncaughtException` listener and
calls `close()` on every tracked socket (without awaiting the close
handshake, without clearing the set, and without restoring the
constructor); otherwise it does nothing. -/
def drainedState (opts : NeonOptions) (s : SuiteState) : SuiteState :=
  if opts.autoCloseWebSockets.getD false then
    { s with
      uncaughtHandlers := s.uncaughtHandlers + 1
      sockets := s.sockets.map fun sk =>
        if s.neonSockets.contains sk.sid then
          { sk with readyState := wsCloseCall sk.readyState }
        else sk }
  else s

/-- The `afterAll` hook: clears the environment variable (see
`envClearedState` — Node keeps the variable, holding the string
"undefined"), runs the auto-close block (see `drainedState`), then, unless
`deleteBranch` is `false`, issues the delete-branch API call and resets
the closure variable `branch`.  The second component is the delete call
issued (if any); the third is the message of an `Error` the hook itself
throws (`deleteBranch` with no live branch). -/
def afterAllStep (opts : NeonOptions) (s : SuiteState) :
    SuiteState × Option DeleteCall × Option String :=
  let s2 := drainedState opts (envClearedState s)
  if opts.deleteBranch = some false then (s2, none, none)
  else
    match s2.branch with
    | none => (s2, none, some "No branch to delete")
    | some br =>
      if br.id = "" then (s2, none, some "No branch to delete")
      else ({ s2 with branch := none },
        some { projectId := opts.projectId, branchId := br.id,
               trackedAtCall := trackedSockets s2 }, none)

/-- The accessor the activation function returns: `() => branch`.  A plain
closure read — it cannot throw and cannot block. -/
def branchAccessor (s : SuiteState) : Option BranchHandle :=
  s.branch

/-- Whether an uncaught exception raised in the current state is swallowed:
with at least one installed copy of `neonWsErrorHandler`, an error carrying
the benign Neon WebSocket signature is swallowed (the handler returns);
every other error, and every error in a state with no installed handler,
propagates. -/
def uncaughtSwallowed (s : SuiteState) (e : JsErrorObj) : Bool :=
  decide (0 < s.uncaughtHandlers) && isNeonWsClose e

/-- The roles of a creation response, with an absent array read as empty
(an absent array and an empty array are indistinguishable to every
operation `createBranch` performs). -/
def rolesOf (data : BranchCreateData) : List NamedRec :=
  data.roles.getD []

/-- The databases of a creation response, with an absent array read as
empty. -/
def databasesOf (data : BranchCreateData) : List NamedRec :=
  data.databases.getD []

/-- The `??` chain computing `targetRole` (with `conventional` =
"neondb_owner") or `targetDatabase` (with `conventional` = "neondb") over
the response's list of records. -/
def codeTarget (explicit : Option String) (conventional : String)
    (recs : List NamedRec) : Option String :=
  explicit.orElse fun _ =>
    ((recs.find? fun x => x.name == conventional).map NamedRec.name).orElse fun _ =>
      recs.head?.map NamedRec.name

/-- The boolean guarding `throw new Error("Role not found: ...")` (and its
database twin): the override is truthy and no record carries its name. -/
def missingCheck (explicit : Option String) (recs : List NamedRec) : Bool :=
  !(jsFalsyStr explicit) && !(recs.any fun x => x.name == explicit.getD "")

/-- Target resolution as the claim words it: the explicit override if given
(`none` when it does not exist in the response), else the record with the
conventional name if present, else the first available record, `none` when
none is available at all. -/
def claimTarget (explicit : Option String) (conventional : String)
    (recs : List NamedRec) : Option String :=
  match explicit with
  | some r => if recs.any fun x => x.name == r then some r else none
  | none =>
    if recs.any fun x => x.name == conventional then some conventional
    else recs.head?.map NamedRec.name

/-! Concrete fixtures used to evaluate the model on explicit inputs. -/

/-- A factory configuration with every optional field left out. -/
def sampleOptions : NeonOptions where
  apiKey := "key"
  projectId := "proj"

/-- The same configuration with `autoCloseWebSockets: true`. -/
def sampleOptionsAuto : NeonOptions :=
  { sampleOptions with autoCloseWebSockets := some true }

/-- A created branch handle. -/
def sampleBranch : BranchHandle where
  id := "br-test-1"

/-- A connection URI as published to `DATABASE_URL`. -/
def sampleUri : String :=
  "postgresql://user:pw@host/db?sslmode=require"

/-- An error carrying the full benign Neon WebSocket signature: the fixed
message phrase and a stack originating in `@neondatabase/serverless`. -/
def benignNeonError : JsErrorObj where
  message := "Error: Connection terminated unexpectedly"
  stack := some "at Socket (node_modules/@neondatabase/serverless/index.js:1:10)"

/-- An error with the benign message but a stack from elsewhere. -/
def messageOnlyError : JsErrorObj where
  message := "Connection terminated unexpectedly"
  stack := some "at Client (node_modules/pg/lib/client.js:5:5)"

/-- An error with a `@neondatabase/serverless` stack but another message. -/
def stackOnlyError : JsErrorObj where
  message := "read ECONNRESET"
  stack := some "at Socket (node_modules/@neondatabase/serverless/index.js:2:2)"

/-- The state at the end of `beforeAll` for a suite with auto-drain on. -/
def autoSetupState : SuiteState :=
  beforeAllStep sampleOptionsAuto sampleBranch sampleUri initialSuiteState

/-- `autoSetupState` after the tests opened one Neon WebSocket (tracked)
whose connection completed. -/
def autoTestsState : SuiteState :=
  socketOpenEvent 0 (newWebSocketStep "wss://ep-1.aws.neon.tech/v2" autoSetupState)

/-- The `afterAll` run of that suite: final state, the delete call it
issued, and the error it threw (none here). -/
def autoTeardown : SuiteState × Option DeleteCall × Option String :=
  afterAllStep sampleOptionsAuto autoTestsState

theorem isNeonWsClose_iff (e : JsErrorObj) :
    isNeonWsClose e = true ↔
      (jsIncludes e.message "Connection terminated unexpectedly" = true ∧
        ∃ st, e.stack = some st ∧ jsIncludes st "@neondatabase/serverless" = true) := by
  unfold isNeonWsClose
  cases h : e.stack <;> simp [h, Bool.and_eq_true]

theorem neonWsErrorHandler_swallowed_iff (e : JsErrorObj) :
    neonWsErrorHandler e = .swallowed ↔ isNeonWsClose e = true := by
  unfold neonWsErrorHandler
  by_cases h : isNeonWsClose e = true <;> simp [h]

end NeonTesting

open NeonTesting

/-- C4: while the error-suppression guard is active, an error is swallowed
iff its message contains "Connection terminated unexpectedly" AND its stack
originates from "@neondatabase/serverless"; an error matching only the
message or only the stack is rethrown, not swallowed. -/
theorem c4_guard_signature :
    (∀ e : JsErrorObj,
      (neonWsErrorHandler e = .swallowed ↔
        jsIncludes e.message "Connection terminated unexpectedly" = true ∧
        ∃ st, e.stack = some st ∧ jsIncludes st "@neondatabase/serverless" = true) ∧
      (neonWsErrorHandler e ≠ .swallowed → neonWsErrorHandler e = .rethrown e)) ∧
    neonWsErrorHandler benignNeonError = .swallowed ∧
    neonWsErrorHandler messageOnlyError = .rethrown messageOnlyError ∧
    neonWsErrorHandler stackOnlyError = .rethrown stackOnlyError ∧
    (∀ s e, uncaughtSwallowed s e = true ↔
      0 < s.uncaughtHandlers ∧ isNeonWsClose e = true) := by
  refine ⟨fun e => ⟨?_, ?_⟩, by decide, by decide, by decide, fun s e => ?_⟩
  · rw [neonWsErrorHandler_swallowed_iff]
    exact isNeonWsClose_iff e
  · intro h
    unfold neonWsErrorHandler at h ⊢
    by_cases hc : isNeonWsClose e = true <;> simp [hc] at h ⊢
  · simp [uncaughtSwallowed, Bool.and_eq_true]

/-- C7: expiresIn validation raises a configuration error naming the
violated constraint for 0, negative values, non-integers and 2,592,001;
600 and null pass; the validation is a pure synchronous function applied
to the factory options by `makeNeonTesting` and to the overrides by the
activation function, whose failure aborts activation before any hook or
network call. -/
theorem c7_expires_in_validation :
    validateExpiresIn (.val 0) = .error "expiresIn must be a positive integer" ∧
    (∀ q : ℚ, q < 0 →
      validateExpiresIn (.val q) = .error "expiresIn must be an integer" ∨
      validateExpiresIn (.val q) = .error "expiresIn must be a positive integer") ∧
    (∀ q : ℚ, q.isInt = false →
      validateExpiresIn (.val q) = .error "expiresIn must be an integer") ∧
    validateExpiresIn (.val 2592001) =
      .error "expiresIn must not exceed 30 days (2,592,000 seconds)" ∧
    validateExpiresIn (.val 600) = .ok () ∧
    validateExpiresIn .null = .ok () ∧
    (∀ f : NeonOptions, makeNeonTestingValidate f = validateExpiresIn f.expiresIn) ∧
    (∀ (f : NeonOptions) (o : NeonOverrides) (m : String),
      validateExpiresIn o.expiresIn = .error m →
      neonTestingActivate f (some o) = .error m) ∧
    (∀ (f : NeonOptions) (o : NeonOverrides),
      validateExpiresIn o.expiresIn = .ok () →
      neonTestingActivate f (some o) = .ok (mergeOptions f o)) := by
  refine ⟨by decide, fun q hq => ?_, fun q hq => ?_, by decide, by decide, by decide,
    fun f => rfl, fun f o m hm => ?_, fun f o hok => ?_⟩
  · by_cases hi : q.isInt = true
    · right
      simp only [validateExpiresIn, hi]
      simp [le_of_lt hq]
    · left
      simp only [Bool.not_eq_true] at hi
      simp [validateExpiresIn, hi]
  · simp [validateExpiresIn, hq]
  · cases he : o.expiresIn with
    | undef => rw [he] at hm; simp [validateExpiresIn] at hm
    | null => rw [he] at hm; simp [validateExpiresIn] at hm
    | val q =>
      rw [he] at hm
      simp [neonTestingActivate, he, hm]
  · cases he : o.expiresIn with
    | undef => simp [neonTestingActivate, he]
    | null => simp [neonTestingActivate, he, validateExpiresIn]
    | val q =>
      rw [he] at hok
      simp [neonTestingActivate, he, hok]

/-- C9: the branch-creation request carries the expiry timestamp
`Date.now() + E * 1000` for the effective expiry-seconds E (600 when the
option is `undefined`), which in particular lies within the claim's ±10s
tolerance band around T + E; with expiry disabled (`null`) no expiry
timestamp is included. -/
theorem c9_expiry_arithmetic :
    (∀ (opts : NeonOptions) (uuid : String) (nowMs : ℚ), opts.expiresIn = .undef →
      ∃ t, (makeBranchRequest opts uuid nowMs).expires_at = some t ∧
        nowMs + 600 * 1000 - 10000 ≤ t ∧ t ≤ nowMs + 600 * 1000 + 10000) ∧
    (∀ (opts : NeonOptions) (uuid : String) (nowMs E : ℚ), opts.expiresIn = .val E →
      ∃ t, (makeBranchRequest opts uuid nowMs).expires_at = some t ∧
        nowMs + E * 1000 - 10000 ≤ t ∧ t ≤ nowMs + E * 1000 + 10000) ∧
    (∀ (opts : NeonOptions) (uuid : String) (nowMs : ℚ), opts.expiresIn = .null →
      (makeBranchRequest opts uuid nowMs).expires_at = none) := by
  refine ⟨fun opts uuid nowMs h => ?_, fun opts uuid nowMs E h => ?_,
    fun opts uuid nowMs h => ?_⟩
  · refine ⟨nowMs + 600 * 1000, ?_, by linarith, by linarith⟩
    simp [makeBranchRequest, branchExpiresAtMs, effectiveExpiresIn, h]
  · refine ⟨nowMs + E * 1000, ?_, by linarith, by linarith⟩
    simp [makeBranchRequest, branchExpiresAtMs, effectiveExpiresIn, h]
  · simp [makeBranchRequest, branchExpiresAtMs, effectiveExpiresIn, h]

/-- C1: the pre-suite hook does set DATABASE_URL to the branch's connection
URI, but the post-suite hook's `process.env.DATABASE_URL = undefined` does
not unset the variable: Node coerces the assigned value, leaving the
variable present with the string "undefined". -/
theorem c1_env_var_not_unset :
    (beforeAllStep sampleOptions sampleBranch sampleUri initialSuiteState).databaseUrl
        = some sampleUri ∧
    (afterAllStep sampleOptions
        (beforeAllStep sampleOptions sampleBranch sampleUri initialSuiteState)).1.databaseUrl
        = some "undefined" ∧
    (afterAllStep sampleOptions
        (beforeAllStep sampleOptions sampleBranch sampleUri initialSuiteState)).1.databaseUrl
        ≠ none := by
  decide

/-- C2: teardown installs `neonWsErrorHandler` as an `uncaughtException`
listener and never removes it, so after teardown completes the handler is
still installed and a benign-signature error raised later IS swallowed —
the removal the claim asserts does not happen. -/
theorem c2_handler_not_removed :
    autoTeardown.1.uncaughtHandlers = 1 ∧
    uncaughtSwallowed autoTeardown.1 benignNeonError = true ∧
    uncaughtSwallowed initialSuiteState benignNeonError = false := by
  decide

/-- C3 counterexample: in a suite with auto-drain that opened one tracked
Neon WebSocket, the delete-branch call is issued while the tracked set
still holds that socket in the `closing` (not `closed`) state; the set is
not cleared by draining, and a close event does not remove the socket from
the set (no self-removal). -/
theorem c3_tracked_set_counterexample :
    autoTeardown.2.1 = some (⟨"proj", "br-test-1",
      [⟨0, "wss://ep-1.aws.neon.tech/v2", .closing⟩]⟩ : DeleteCall) ∧
    autoTeardown.1.neonSockets = [0] ∧
    (socketCloseEvent 0 autoTestsState).neonSockets = [0] ∧
    (socketCloseEvent 0 autoTeardown.1).neonSockets = [0] := by
  decide

/-- C8 counterexample: the tracking WebSocket constructor installed by the
pre-suite hook of an auto-drain suite is still installed after teardown;
nothing restores the original constructor. -/
theorem c8_ctor_not_restored_counterexample :
    initialSuiteState.wsCtor = .original ∧
    autoSetupState.wsCtor = .tracking ∧
    autoTeardown.1.wsCtor = .tracking := by
  decide

theorem drainedState_wsCtor (opts : NeonOptions) (s : SuiteState) :
    (drainedState opts s).wsCtor = s.wsCtor := by
  unfold drainedState
  split <;> rfl

theorem drainedState_neonSockets (opts : NeonOptions) (s : SuiteState) :
    (drainedState opts s).neonSockets = s.neonSockets := by
  unfold drainedState
  split <;> rfl

theorem drainedState_branch (opts : NeonOptions) (s : SuiteState) :
    (drainedState opts s).branch = s.branch := by
  unfold drainedState
  split <;> rfl

theorem afterAllStep_fst_wsCtor (opts : NeonOptions) (s : SuiteState) :
    (afterAllStep opts s).1.wsCtor = s.wsCtor := by
  unfold afterAllStep
  dsimp only
  have hW : (drainedState opts (envClearedState s)).wsCtor = s.wsCtor :=
    drainedState_wsCtor opts (envClearedState s)
  split
  · exact hW
  · split
    · exact hW
    · split
      · exact hW
      · exact hW

theorem afterAllStep_fst_neonSockets (opts : NeonOptions) (s : SuiteState) :
    (afterAllStep opts s).1.neonSockets = s.neonSockets := by
  unfold afterAllStep
  dsimp only
  have hW : (drainedState opts (envClearedState s)).neonSockets = s.neonSockets :=
    drainedState_neonSockets opts (envClearedState s)
  split
  · exact hW
  · split
    · exact hW
    · split
      · exact hW
      · exact hW

/-- C8 amended: the post-suite hook does not touch
`neonConfig.webSocketConstructor` at all — in particular the tracking
constructor installed by an auto-drain suite's pre-suite hook is still
installed after that suite's teardown, not restored to the original. -/
theorem c8_amended_ctor_unchanged (opts : NeonOptions) (s : SuiteState)
    (br : BranchHandle) (uri : String) :
    (afterAllStep opts s).1.wsCtor = s.wsCtor ∧
    (opts.autoCloseWebSockets = some true →
      (afterAllStep opts (beforeAllStep opts br uri s)).1.wsCtor = .tracking) := by
  refine ⟨afterAllStep_fst_wsCtor opts s, fun h => ?_⟩
  rw [afterAllStep_fst_wsCtor]
  simp [beforeAllStep, h]

theorem afterAllStep_delete (opts : NeonOptions) (s : SuiteState)
    (br : BranchHandle) (hdel : opts.deleteBranch ≠ some false)
    (hb : s.branch = some br) (hid : br.id ≠ "") :
    (afterAllStep opts s).1.branch = none ∧
    (afterAllStep opts s).2.1 =
      some { projectId := opts.projectId, branchId := br.id,
             trackedAtCall := trackedSockets (drainedState opts (envClearedState s)) } := by
  have hb2 : (drainedState opts (envClearedState s)).branch = some br := by
    rw [drainedState_branch]
    exact hb
  unfold afterAllStep
  dsimp only
  rw [if_neg hdel, hb2]
  dsimp only
  rw [if_neg hid]
  exact ⟨rfl, rfl⟩

theorem afterAllStep_deleteCall_snapshot (opts : NeonOptions) (s : SuiteState)
    (dc : DeleteCall) (hdc : (afterAllStep opts s).2.1 = some dc) :
    dc.trackedAtCall = trackedSockets (drainedState opts (envClearedState s)) := by
  unfold afterAllStep at hdc
  dsimp only at hdc
  by_cases hdel : opts.deleteBranch = some false
  · rw [if_pos hdel] at hdc
    exact absurd hdc (by simp)
  · rw [if_neg hdel] at hdc
    cases hb : (drainedState opts (envClearedState s)).branch with
    | none =>
      rw [hb] at hdc
      exact absurd hdc (by simp)
    | some br =>
      rw [hb] at hdc
      dsimp only at hdc
      by_cases hid : br.id = ""
      · rw [if_pos hid] at hdc
        exact absurd hdc (by simp)
      · rw [if_neg hid] at hdc
        dsimp only at hdc
        obtain rfl : _ = dc := Option.some_injective _ hdc
        rfl

theorem drained_tracked_close_initiated (opts : NeonOptions) (s : SuiteState)
    (hauto : opts.autoCloseWebSockets = some true) :
    ∀ sk ∈ trackedSockets (drainedState opts s),
      sk.readyState = .closing ∨ sk.readyState = .closed := by
  intro sk hsk
  unfold trackedSockets at hsk
  rw [List.mem_filter] at hsk
  obtain ⟨hmem, hcontains⟩ := hsk
  unfold drainedState at hmem hcontains
  rw [hauto] at hmem hcontains
  dsimp only [Option.getD] at hmem hcontains
  rw [if_pos (rfl : (true : Bool) = true)] at hmem hcontains
  rw [List.mem_map] at hmem
  obtain ⟨a, _, rfl⟩ := hmem
  by_cases hc : s.neonSockets.contains a.sid
  · rw [if_pos hc]
    cases h : a.readyState <;> simp [wsCloseCall]
  · rw [if_neg hc] at hcontains
    exact absurd hcontains hc

/-- C3 amended: when automatic draining is enabled, `close()` has been
initiated on every tracked connection before the delete-branch call is
issued — every member of the tracked-set snapshot at the call is in the
`closing` or `closed` state — but connections are NOT removed from the set
when they close, and the set is never cleared: teardown leaves
`neonSockets` unchanged, so the set need not be empty (nor its members
closed) at the delete call. -/
theorem c3_amended_drain (opts : NeonOptions) (s : SuiteState) (dc : DeleteCall)
    (hauto : opts.autoCloseWebSockets = some true)
    (hdc : (afterAllStep opts s).2.1 = some dc) :
    (∀ sk ∈ dc.trackedAtCall, sk.readyState = .closing ∨ sk.readyState = .closed) ∧
    (afterAllStep opts s).1.neonSockets = s.neonSockets ∧
    (∀ sid, (socketCloseEvent sid s).neonSockets = s.neonSockets) := by
  refine ⟨?_, afterAllStep_fst_neonSockets opts s, fun sid => rfl⟩
  rw [afterAllStep_deleteCall_snapshot opts s dc hdc]
  exact drained_tracked_close_initiated opts (envClearedState s) hauto

/-- Witness for C3's amended statement on the concrete auto-drain suite. -/
theorem c3_amended_drain_witness :
    (∀ sk ∈ (⟨"proj", "br-test-1",
        [⟨0, "wss://ep-1.aws.neon.tech/v2", .closing⟩]⟩ : DeleteCall).trackedAtCall,
      sk.readyState = .closing ∨ sk.readyState = .closed) ∧
    (afterAllStep sampleOptionsAuto autoTestsState).1.neonSockets
      = autoTestsState.neonSockets ∧
    (∀ sid, (socketCloseEvent sid autoTestsState).neonSockets
      = autoTestsState.neonSockets) :=
  c3_amended_drain sampleOptionsAuto autoTestsState
    (⟨"proj", "br-test-1", [⟨0, "wss://ep-1.aws.neon.tech/v2", .closing⟩]⟩ : DeleteCall)
    (by decide) (by decide)

/-- C10: the accessor `() => branch` is a total read of the closure
variable (it cannot throw or block); it yields `undefined` before the
pre-suite hook has run, the created branch handle once the pre-suite hook
completed, and `undefined` again after a teardown whose delete call
succeeded (the closure variable is reset right after the call). -/
theorem c10_accessor_lifecycle (opts : NeonOptions) (br : BranchHandle) (uri : String)
    (hdel : opts.deleteBranch ≠ some false) (hid : br.id ≠ "") :
    branchAccessor initialSuiteState = none ∧
    branchAccessor (beforeAllStep opts br uri initialSuiteState) = some br ∧
    (∃ dc, (afterAllStep opts (beforeAllStep opts br uri initialSuiteState)).2.1 = some dc) ∧
    branchAccessor (afterAllStep opts (beforeAllStep opts br uri initialSuiteState)).1 = none := by
  have hb : (beforeAllStep opts br uri initialSuiteState).branch = some br := by
    unfold beforeAllStep
    split <;> rfl
  obtain ⟨h1, h2⟩ := afterAllStep_delete opts _ br hdel hb hid
  exact ⟨rfl, hb, ⟨_, h2⟩, h1⟩

theorem retryLoop_eq {α : Type} (fn : ℕ → Except ApiError α) (mr : ℕ) (b : ℚ) (a : ℕ) :
    retryLoop fn mr b a =
      if mr < a then (.thrown "apiCallWithRetry reached unexpected end", [])
      else
        match fn a with
        | .ok v => (.ok v, [])
        | .error e =>
          if e.status = some 423 ∧ a < mr then
            ((retryLoop fn mr b (a + 1)).1, b * 2 ^ (a - 1) :: (retryLoop fn mr b (a + 1)).2)
          else (.err e, []) := by
  unfold retryLoop
  by_cases h : mr < a
  · rw [if_pos h]
    have h0 : mr + 1 - a = 0 := by omega
    rw [h0]
    rfl
  · rw [if_neg h]
    have h1 : mr + 1 - a = (mr - a) + 1 := by omega
    have h2 : mr + 1 - (a + 1) = mr - a := by omega
    rw [h1, h2]
    rfl

theorem retryLoop_all423 {α : Type} (fn : ℕ → Except ApiError α) (mr : ℕ) (b : ℚ)
    (err : ℕ → ApiError)
    (hfn : ∀ j, 1 ≤ j → j ≤ mr → fn j = .error (err j) ∧ (err j).status = some 423) :
    ∀ k a, mr - a = k → 1 ≤ a → a ≤ mr →
      retryLoop fn mr b a =
        (.err (err mr), (List.range (mr - a)).map fun i => b * 2 ^ (a - 1 + i)) := by
  intro k
  induction k with
  | zero =>
    intro a hk h1 h2
    have ha : a = mr := by omega
    subst ha
    rw [retryLoop_eq, if_neg (by omega), (hfn a h1 h2).1]
    dsimp only
    rw [if_neg (by omega)]
    rw [hk]
    rfl
  | succ k ih =>
    intro a hk h1 h2
    have hlt : a < mr := by omega
    rw [retryLoop_eq, if_neg (by omega), (hfn a h1 (le_of_lt hlt)).1]
    dsimp only
    rw [if_pos ⟨(hfn a h1 (le_of_lt hlt)).2, hlt⟩]
    rw [ih (a + 1) (by omega) (by omega) (by omega)]
    refine Prod.ext rfl ?_
    dsimp only
    have hshift : (fun i => b * 2 ^ (a + 1 - 1 + i)) = fun i => b * 2 ^ (a + i) := by
      funext i
      have : a + 1 - 1 + i = a + i := by omega
      rw [this]
    rw [hshift]
    have hn : mr - a = (mr - (a + 1)) + 1 := by omega
    rw [hn, List.range_succ_eq_map, List.map_cons, List.map_map]
    have hz : a - 1 + 0 = a - 1 := by omega
    rw [hz]
    have hcomp : ((fun i => b * 2 ^ (a - 1 + i)) ∘ Nat.succ) = fun i => b * 2 ^ (a + i) := by
      funext i
      have : a - 1 + Nat.succ i = a + i := by omega
      simp only [Function.comp]
      rw [this]
    rw [hcomp]

/-- C5: the retry wrapper validates both policy fields up front — for an
invalid `maxRetries` or `baseDelayMs` the configuration error is produced
whatever the operation does, i.e. before it is ever invoked; with a valid
policy it runs the loop from attempt 1, in which a success returns
immediately, a failure without status 423 propagates unchanged with no
wait, a failure at the final attempt propagates unchanged (exhaustion), and
a 423 failure with attempts remaining waits `baseDelayMs * 2 ^ (attempt-1)`
and retries; a run whose every attempt fails with 423 ends with the last
failure and the full geometric delay schedule. -/
theorem c5_with_retry_behavior {α : Type} (fn : ℕ → Except ApiError α) (mrQ bQ : ℚ) :
    ((¬ mrQ.isInt = true ∨ mrQ ≤ 0) →
      withRetry fn mrQ bQ = (.thrown "maxRetries must be a positive integer", [])) ∧
    (mrQ.isInt = true → 0 < mrQ → (¬ bQ.isInt = true ∨ bQ ≤ 0) →
      withRetry fn mrQ bQ = (.thrown "baseDelayMs must be a positive integer", [])) ∧
    (mrQ.isInt = true → 0 < mrQ → bQ.isInt = true → 0 < bQ →
      withRetry fn mrQ bQ = retryLoop fn mrQ.num.toNat bQ 1) ∧
    (∀ (mr a : ℕ) (v : α), a ≤ mr → fn a = .ok v →
      retryLoop fn mr bQ a = (.ok v, [])) ∧
    (∀ (mr a : ℕ) (e : ApiError), a ≤ mr → fn a = .error e → ¬ e.status = some 423 →
      retryLoop fn mr bQ a = (.err e, [])) ∧
    (∀ (mr : ℕ) (e : ApiError), 1 ≤ mr → fn mr = .error e →
      retryLoop fn mr bQ mr = (.err e, [])) ∧
    (∀ (mr a : ℕ) (e : ApiError), 1 ≤ a → a < mr → fn a = .error e →
      e.status = some 423 →
      retryLoop fn mr bQ a =
        ((retryLoop fn mr bQ (a + 1)).1,
          bQ * 2 ^ (a - 1) :: (retryLoop fn mr bQ (a + 1)).2)) ∧
    (∀ err : ℕ → ApiError, mrQ.isInt = true → 0 < mrQ → bQ.isInt = true → 0 < bQ →
      (∀ j, 1 ≤ j → j ≤ mrQ.num.toNat →
        fn j = .error (err j) ∧ (err j).status = some 423) →
      withRetry fn mrQ bQ =
        (.err (err mrQ.num.toNat),
          (List.range (mrQ.num.toNat - 1)).map fun i => bQ * 2 ^ i)) := by
  refine ⟨fun h => ?_, fun h1 h2 h3 => ?_, fun h1 h2 h3 h4 => ?_,
    fun mr a v ha hv => ?_, fun mr a e ha he hs => ?_, fun mr e hm he => ?_,
    fun mr a e h1 h2 he hs => ?_, fun err h1 h2 h3 h4 hfn => ?_⟩
  · unfold withRetry
    rw [if_pos h]
  · unfold withRetry
    rw [if_neg (by push_neg; exact ⟨h1, h2⟩), if_pos h3]
  · unfold withRetry
    rw [if_neg (by push_neg; exact ⟨h1, h2⟩), if_neg (by push_neg; exact ⟨h3, h4⟩)]
  · rw [retryLoop_eq, if_neg (by omega), hv]
  · rw [retryLoop_eq, if_neg (by omega), he]
    dsimp only
    rw [if_neg (by tauto)]
  · rw [retryLoop_eq, if_neg (by omega), he]
    dsimp only
    rw [if_neg (by omega)]
  · rw [retryLoop_eq, if_neg (by omega), he]
    dsimp only
    rw [if_pos ⟨hs, h2⟩]
  · have hmr : 1 ≤ mrQ.num.toNat := by
      have hnum : 0 < mrQ.num := Rat.num_pos.mpr h2
      omega
    unfold withRetry
    rw [if_neg (by push_neg; exact ⟨h1, h2⟩), if_neg (by push_neg; exact ⟨h3, h4⟩)]
    rw [retryLoop_all423 fn mrQ.num.toNat bQ err hfn (mrQ.num.toNat - 1) 1 (by omega)
      le_rfl hmr]
    have hexp : (fun i => bQ * 2 ^ (1 - 1 + i)) = fun i => bQ * 2 ^ i := by
      funext i
      norm_num
    rw [hexp]

theorem resolveRoleAndDatabase_eq (rn dn : Option String) (data : BranchCreateData) :
    resolveRoleAndDatabase rn dn data =
      (if jsFalsyStr (codeTarget rn "neondb_owner" (rolesOf data)) then
        .error "No role available in branch"
      else if jsFalsyStr (codeTarget dn "neondb" (databasesOf data)) then
        .error "No database available in branch"
      else if missingCheck rn (rolesOf data) then
        .error ("Role not found: " ++ rn.getD "")
      else if missingCheck dn (databasesOf data) then
        .error ("Database not found: " ++ dn.getD "")
      else .ok ((codeTarget rn "neondb_owner" (rolesOf data)).getD "",
        (codeTarget dn "neondb" (databasesOf data)).getD "")) := by
  obtain ⟨roles, databases⟩ := data
  cases roles <;> cases databases <;> rfl

theorem find?_eq_some_of_any {p : NamedRec → Bool} {l : List NamedRec}
    (h : l.any p = true) : ∃ y, l.find? p = some y := by
  cases hf : l.find? p with
  | some y => exact ⟨y, rfl⟩
  | none =>
    rcases List.any_eq_true.mp h with ⟨x, hx, hpx⟩
    rw [List.find?_eq_none] at hf
    exact absurd hpx (hf x hx)

theorem claimTarget_forward (explicit : Option String) (conv : String)
    (recs : List NamedRec) (hex : explicit ≠ some "")
    (hnames : ∀ r ∈ recs, r.name ≠ "") (ρ : String)
    (h : claimTarget explicit conv recs = some ρ) :
    codeTarget explicit conv recs = some ρ ∧
    jsFalsyStr (codeTarget explicit conv recs) = false ∧
    missingCheck explicit recs = false := by
  cases explicit with
  | some r =>
    have hr : r ≠ "" := fun hr => hex (by rw [hr])
    by_cases hany : recs.any (fun x => x.name == r) = true
    · unfold claimTarget at h
      dsimp only at h
      rw [if_pos hany] at h
      obtain rfl : r = ρ := Option.some_injective _ h
      refine ⟨rfl, ?_, ?_⟩
      · simp [codeTarget, jsFalsyStr, Option.orElse, hr]
      · simp [missingCheck, jsFalsyStr, hany, hr]
    · unfold claimTarget at h
      dsimp only at h
      rw [if_neg hany] at h
      exact absurd h (by simp)
  | none =>
    unfold claimTarget at h
    dsimp only at h
    by_cases hany : recs.any (fun x => x.name == conv) = true
    · rw [if_pos hany] at h
      obtain rfl : conv = ρ := Option.some_injective _ h
      obtain ⟨y, hy⟩ := find?_eq_some_of_any hany
      have hpy := List.find?_some hy
      have hyname : y.name = conv := eq_of_beq hpy
      have hymem : y ∈ recs := List.mem_of_find?_eq_some hy
      have hcode : codeTarget none conv recs = some conv := by
        simp [codeTarget, Option.orElse, hy, hyname]
      refine ⟨hcode, ?_, rfl⟩
      rw [hcode]
      simp [jsFalsyStr]
      rw [← hyname]
      exact hnames y hymem
    · rw [if_neg hany] at h
      have hf : recs.find? (fun x => x.name == conv) = none := by
        rw [List.find?_eq_none]
        intro x hx
        rw [Bool.not_eq_true] at hany ⊢
        rcases Bool.eq_false_iff.mp hany with _
        by_contra hpx
        rw [Bool.not_eq_false] at hpx
        exact absurd (List.any_eq_true.mpr ⟨x, hx, hpx⟩) (by rw [hany]; simp)
      cases recs with
      | nil => exact absurd h (by simp)
      | cons x t =>
        have hxname : x.name = ρ := by
          simpa using h
        have hcode : codeTarget none conv (x :: t) = some ρ := by
          simp [codeTarget, Option.orElse, hf, hxname]
        refine ⟨hcode, ?_, rfl⟩
        rw [hcode]
        simp [jsFalsyStr]
        rw [← hxname]
        exact hnames x (List.mem_cons_self x t)

theorem claimTarget_backward (explicit : Option String) (conv : String)
    (recs : List NamedRec)
    (h1 : jsFalsyStr (codeTarget explicit conv recs) = false)
    (h2 : missingCheck explicit recs = false) :
    claimTarget explicit conv recs = some ((codeTarget explicit conv recs).getD "") := by
  cases explicit with
  | some r =>
    have hcode : codeTarget (some r) conv recs = some r := rfl
    rw [hcode] at h1 ⊢
    have hfal : (r == "") = false := by simpa [jsFalsyStr] using h1
    have hany : recs.any (fun x => x.name == r) = true := by
      by_contra hc
      rw [Bool.not_eq_true] at hc
      simp [missingCheck, jsFalsyStr, hfal, hc] at h2
    unfold claimTarget
    dsimp only
    rw [if_pos hany]
    rfl
  | none =>
    cases hf : recs.find? (fun x => x.name == conv) with
    | some y =>
      have hpy := List.find?_some hf
      have hyname : y.name = conv := eq_of_beq hpy
      have hany : recs.any (fun x => x.name == conv) = true :=
        List.any_eq_true.mpr ⟨y, List.mem_of_find?_eq_some hf, hpy⟩
      have hcode : codeTarget none conv recs = some conv := by
        simp [codeTarget, Option.orElse, hf, hyname]
      rw [hcode]
      unfold claimTarget
      dsimp only
      rw [if_pos hany]
      rfl
    | none =>
      have hany : recs.any (fun x => x.name == conv) = false := by
        by_contra hc
        rw [Bool.not_eq_false] at hc
        obtain ⟨y, hy⟩ := find?_eq_some_of_any hc
        rw [hf] at hy
        exact absurd hy (by simp)
      have hcode : codeTarget none conv recs = recs.head?.map NamedRec.name := by
        simp [codeTarget, Option.orElse, hf]
      rw [hcode] at h1 ⊢
      unfold claimTarget
      dsimp only
      rw [if_neg (by rw [hany]; simp)]
      cases recs with
      | nil => simp [jsFalsyStr] at h1
      | cons x t => rfl

/-- C6: target-role and target-database selection follows the claimed
preference order — explicit override, else the conventional name
("neondb_owner" / "neondb"), else the first available — and an error is
raised when an explicitly named role or database is missing from the
response or when none is available at all.  Stated for responses whose
role/database names are nonempty strings and overrides that are not the
empty string (the empty string is falsy in JavaScript and cannot name a
role or database). -/
theorem c6_role_database_resolution (rn dn : Option String) (data : BranchCreateData)
    (hrn : rn ≠ some "") (hdn : dn ≠ some "")
    (hroles : ∀ r ∈ rolesOf data, r.name ≠ "")
    (hdbs : ∀ d ∈ databasesOf data, d.name ≠ "") :
    (∀ ρ δ, claimTarget rn "neondb_owner" (rolesOf data) = some ρ →
      claimTarget dn "neondb" (databasesOf data) = some δ →
      resolveRoleAndDatabase rn dn data = .ok (ρ, δ)) ∧
    ((claimTarget rn "neondb_owner" (rolesOf data) = none ∨
      claimTarget dn "neondb" (databasesOf data) = none) →
      ∃ msg, resolveRoleAndDatabase rn dn data = .error msg) := by
  constructor
  · intro ρ δ hρ hδ
    obtain ⟨hcr, hfr, hmr⟩ :=
      claimTarget_forward rn "neondb_owner" (rolesOf data) hrn hroles ρ hρ
    obtain ⟨hcd, hfd, hmd⟩ :=
      claimTarget_forward dn "neondb" (databasesOf data) hdn hdbs δ hδ
    rw [resolveRoleAndDatabase_eq]
    rw [if_neg (by rw [hfr]; simp), if_neg (by rw [hfd]; simp),
      if_neg (by rw [hmr]; simp), if_neg (by rw [hmd]; simp), hcr, hcd]
    rfl
  · intro hcase
    rw [resolveRoleAndDatabase_eq]
    by_cases h1 : jsFalsyStr (codeTarget rn "neondb_owner" (rolesOf data)) = true
    · exact ⟨_, by rw [if_pos h1]⟩
    · rw [Bool.not_eq_true] at h1
      by_cases h2 : jsFalsyStr (codeTarget dn "neondb" (databasesOf data)) = true
      · exact ⟨_, by rw [if_neg (by rw [h1]; simp), if_pos h2]⟩
      · rw [Bool.not_eq_true] at h2
        by_cases h3 : missingCheck rn (rolesOf data) = true
        · exact ⟨_, by rw [if_neg (by rw [h1]; simp), if_neg (by rw [h2]; simp),
            if_pos h3]⟩
        · rw [Bool.not_eq_true] at h3
          by_cases h4 : missingCheck dn (databasesOf data) = true
          · exact ⟨_, by rw [if_neg (by rw [h1]; simp), if_neg (by rw [h2]; simp),
              if_neg (by rw [h3]; simp), if_pos h4]⟩
          · rw [Bool.not_eq_true] at h4
            exfalso
            rcases hcase with hnone | hnone
            · rw [claimTarget_backward rn "neondb_owner" (rolesOf data) h1 h3] at hnone
              exact absurd hnone (by simp)
            · rw [claimTarget_backward dn "neondb" (databasesOf data) h2 h4] at hnone
              exact absurd hnone (by simp)

/-- Witness for C6: a response with roles [neondb_owner, extra] and
databases [neondb, extra], an explicit role override naming the extra
role and no database override. -/
theorem c6_role_database_resolution_witness :
    (∀ ρ δ, claimTarget (some "custom") "neondb_owner"
        (rolesOf ⟨some [⟨"neondb_owner"⟩, ⟨"custom"⟩], some [⟨"neondb"⟩, ⟨"app"⟩]⟩) = some ρ →
      claimTarget none "neondb"
        (databasesOf ⟨some [⟨"neondb_owner"⟩, ⟨"custom"⟩], some [⟨"neondb"⟩, ⟨"app"⟩]⟩) = some δ →
      resolveRoleAndDatabase (some "custom") none
        ⟨some [⟨"neondb_owner"⟩, ⟨"custom"⟩], some [⟨"neondb"⟩, ⟨"app"⟩]⟩ = .ok (ρ, δ)) ∧
    ((claimTarget (some "custom") "neondb_owner"
        (rolesOf ⟨some [⟨"neondb_owner"⟩, ⟨"custom"⟩], some [⟨"neondb"⟩, ⟨"app"⟩]⟩) = none ∨
      claimTarget none "neondb"
        (databasesOf ⟨some [⟨"neondb_owner"⟩, ⟨"custom"⟩], some [⟨"neondb"⟩, ⟨"app"⟩]⟩) = none) →
      ∃ msg, resolveRoleAndDatabase (some "custom") none
        ⟨some [⟨"neondb_owner"⟩, ⟨"custom"⟩], some [⟨"neondb"⟩, ⟨"app"⟩]⟩ = .error msg) :=
  c6_role_database_resolution (some "custom") none
    ⟨some [⟨"neondb_owner"⟩, ⟨"custom"⟩], some [⟨"neondb"⟩, ⟨"app"⟩]⟩
    (by decide) (by decide) (by decide) (by decide)

/-- Witness for C10 at a concrete configuration, branch and URI. -/
theorem c10_accessor_lifecycle_witness :
    branchAccessor initialSuiteState = none ∧
    branchAccessor (beforeAllStep sampleOptions sampleBranch sampleUri initialSuiteState)
      = some sampleBranch ∧
    (∃ dc, (afterAllStep sampleOptions
      (beforeAllStep sampleOptions sampleBranch sampleUri initialSuiteState)).2.1 = some dc) ∧
    branchAccessor (afterAllStep sampleOptions
      (beforeAllStep sampleOptions sampleBranch sampleUri initialSuiteState)).1 = none :=
  c10_accessor_lifecycle sampleOptions sampleBranch sampleUri (by decide) (by decide)
